import Mathlib

/-!
Shallow embedding of the audio recorder core: the recording session state
machine in `app/components/AudioRecorder` (start / pause / resume / stop,
chunk buffering, the once-per-second timer, and the `onstop` finalization),
the IndexedDB storage wrapper `AudioStorage` in `app/lib/audioStorage`, and
the device probe `AudioDeviceManager.testDevice` in `app/lib/audioDevices`.

Blobs and chunks are modelled as byte lists, wall-clock milliseconds as
naturals, and the browser handles (`MediaStream`, `MediaStreamTrack`,
`IDBDatabase`) as explicit records.  Asynchronous callbacks are modelled as
events fed to an explicit step function, following the single-threaded
event-loop semantics of the host.
-/

/-- A chunk of encoded audio data (`event.data` in `ondataavailable`),
as a list of bytes; `size` is its length. -/
abbrev Chunk := List Nat

/-- `MediaStreamTrack`: only `readyState` matters to this code
(values `"live"` or `"ended"`); `track.stop()` sets it to `"ended"`. -/
structure MediaStreamTrack where
  readyState : String
deriving DecidableEq, Repr

/-- `track.stop()`. -/
def stopTrack (t : MediaStreamTrack) : MediaStreamTrack :=
  { t with readyState := "ended" }

/-- A `MediaStream` restricted to its audio tracks (the streams opened here
are audio-only, so `getTracks()` and `getAudioTracks()` coincide). -/
structure MediaStream where
  audioTracks : List MediaStreamTrack
deriving DecidableEq, Repr

/-- `stream.getTracks().forEach(track => track.stop())`. -/
def stopAllTracks (m : MediaStream) : MediaStream :=
  { audioTracks := m.audioTracks.map stopTrack }

/-- `AudioRecording` from `app/types/audio.ts`; the blob is its byte
content, `createdAt` is a millisecond timestamp. -/
structure AudioRecording where
  id : String
  name : String
  blob : List Nat
  duration : Nat
  createdAt : Nat
  mimeType : String
deriving DecidableEq, Repr

/-! ### Chunk buffering (`ondataavailable`, `onstop` assembly) -/

/-- The `ondataavailable` handler: pushes `event.data` onto
`chunksRef.current` exactly when `event.data.size > 0`. -/
def pushChunk (buf : List Chunk) (c : Chunk) : List Chunk :=
  if 0 < c.length then buf ++ [c] else buf

/-- The buffer produced by a sequence of `ondataavailable` events, in
emission order. -/
def processChunks (buf : List Chunk) (emitted : List Chunk) : List Chunk :=
  emitted.foldl pushChunk buf

/-- `new Blob(chunksRef.current, ...)`: byte content of the assembled blob,
the concatenation of the buffered chunks in order. -/
def blobBytes (chunks : List Chunk) : List Nat :=
  chunks.flatten

/-- Identifier generated at finalize time: the template literal
`recording_` followed by the decimal rendering of `Date.now()`. -/
def mkRecordingId (now : Nat) : String :=
  "recording_" ++ Nat.repr now

/-- Default display name, `Recording ` followed by a rendering of the
current wall-clock time (`new Date().toLocaleString()`); the locale
rendering is opaque, the name is a function of the clock value only. -/
def mkRecordingName (now : Nat) : String :=
  "Recording " ++ Nat.repr now

/-- The record built inside `mediaRecorder.onstop`: blob from the buffered
chunks, duration from the `recordingTime` the handler closed over,
identifier and name and `createdAt` from the wall clock at finalize time. -/
def assembleRecording (chunks : List Chunk) (capturedTime : Nat)
    (mimeType : String) (now : Nat) : AudioRecording :=
  { id := mkRecordingId now
    name := mkRecordingName now
    blob := blobBytes chunks
    duration := capturedTime
    createdAt := now
    mimeType := mimeType }

/-! ### Storage (`AudioStorage` over IndexedDB) -/

/-- The object store contents; records are keyed by the `id` keyPath. -/
abbrev Store := List AudioRecording

/-- `store.put(recording)`: upsert by the `id` key — any record with the
same key is replaced. -/
def storePut (s : Store) (r : AudioRecording) : Store :=
  s.filter (fun x => x.id != r.id) ++ [r]

/-- The ordering used by the sort in `getRecordings`: the comparator
`(a, b) => new Date(b.createdAt).getTime() - new Date(a.createdAt).getTime()`
places `a` no later than `b` exactly when `b.createdAt ≤ a.createdAt`. -/
def createdAtGe (a b : AudioRecording) : Prop :=
  b.createdAt ≤ a.createdAt

instance : DecidableRel createdAtGe := fun a b => Nat.decLe b.createdAt a.createdAt

instance : IsTotal AudioRecording createdAtGe :=
  ⟨fun a b => Nat.le_total b.createdAt a.createdAt⟩

instance : IsTrans AudioRecording createdAtGe :=
  ⟨fun _ _ _ h1 h2 => Nat.le_trans h2 h1⟩

/-- The sort in `getRecordings`: `.sort` with the comparator above, i.e.
by creation timestamp, newest first.  `Array.prototype.sort` leaves the
algorithm to the engine; any sort agreeing with the comparator is a
faithful model. -/
def sortByCreatedAtDesc (rs : List AudioRecording) : List AudioRecording :=
  List.insertionSort createdAtGe rs

/-- `saveRecording`: rejects with `Database not initialized` when `this.db`
is null, otherwise puts the record.  The pair is (result, database handle
after the call); on the error path no transaction runs. -/
def saveRecording (db : Option Store) (r : AudioRecording) :
    Except String Unit × Option Store :=
  match db with
  | none => (Except.error "Database not initialized", none)
  | some s => (Except.ok (), some (storePut s r))

/-- `getRecordings`: rejects when uninitialized, otherwise reads every
record and sorts by `createdAt` descending. -/
def getRecordings (db : Option Store) :
    Except String (List AudioRecording) × Option Store :=
  match db with
  | none => (Except.error "Database not initialized", none)
  | some s => (Except.ok (sortByCreatedAtDesc s), some s)

/-- `deleteRecording`: rejects when uninitialized, otherwise removes the
record with the given key (a no-op when absent). -/
def deleteRecording (db : Option Store) (key : String) :
    Except String Unit × Option Store :=
  match db with
  | none => (Except.error "Database not initialized", none)
  | some s => (Except.ok (), some (s.filter (fun x => x.id != key)))

/-- `getRecording`: rejects when uninitialized, otherwise
`request.result || null` — the record for the key, or none. -/
def getRecording (db : Option Store) (key : String) :
    Except String (Option AudioRecording) × Option Store :=
  match db with
  | none => (Except.error "Database not initialized", none)
  | some s => (Except.ok (s.find? (fun x => x.id == key)), some s)

/-! ### Device probe (`AudioDeviceManager.testDevice`) -/

/-- `testDevice`: the argument is the outcome of the `getUserMedia` call
(`Except.error` when it throws).  Returns the boolean result paired with
the test stream after its tracks were stopped (`none` on the error path,
where no stream was opened).  The function is total: every failure
collapses to `false`, nothing is thrown. -/
def testDevice (res : Except String MediaStream) : Bool × Option MediaStream :=
  match res with
  | Except.error _ => (false, none)
  | Except.ok stream =>
      let isWorking :=
        match stream.audioTracks with
        | [] => false
        | t :: _ => t.readyState == "live"
      (isWorking, some (stopAllTracks stream))

/-! ### The recording session (`AudioRecorder` component) -/

/-- The recorder component's mutable state: the `recordingState` React
state (`isRecording`, `isPaused`, `recordingTime`, and whether
`mediaRecorder` / `audioStream` are non-null, the stream itself), the
`timerRef` interval, the `chunksRef` buffer, and `capturedTime` — the value
of `recordingState.recordingTime` that the `onstop` closure created inside
`startRecording` closed over (React state reads inside that closure see the
render in which `startRecording` ran, not later renders). -/
structure Session where
  isRecording : Bool
  isPaused : Bool
  recordingTime : Nat
  hasRecorder : Bool
  stream : Option MediaStream
  timerActive : Bool
  chunks : List Chunk
  capturedTime : Option Nat
deriving DecidableEq, Repr

/-- The component's initial state. -/
def initSession : Session :=
  { isRecording := false
    isPaused := false
    recordingTime := 0
    hasRecorder := false
    stream := none
    timerActive := false
    chunks := []
    capturedTime := none }

/-- The success path of `startRecording` once `getUserMedia` yields `ms`:
empties `chunksRef.current`, installs the handlers (whose closure captures
the current `recordingState.recordingTime`), starts the recorder, starts a
fresh 1-second interval, and sets `isRecording`; `recordingTime` itself is
not assigned. -/
def startRecording (s : Session) (ms : MediaStream) : Session :=
  { s with
    chunks := []
    capturedTime := some s.recordingTime
    hasRecorder := true
    stream := some ms
    timerActive := true
    isRecording := true
    isPaused := false }

/-- One firing of the `setInterval` callback: increments `recordingTime`.
A tick can only fire while the interval is installed. -/
def tick (s : Session) : Session :=
  if s.timerActive then { s with recordingTime := s.recordingTime + 1 } else s

/-- `pauseRecording`: guarded by `mediaRecorder && isRecording`; pauses the
recorder, sets `isPaused`, clears the interval. -/
def pauseRecording (s : Session) : Session :=
  if s.hasRecorder && s.isRecording then
    { s with isPaused := true, timerActive := false }
  else s

/-- `resumeRecording`: guarded by `mediaRecorder && isPaused`; resumes the
recorder, clears `isPaused`, restarts the interval. -/
def resumeRecording (s : Session) : Session :=
  if s.hasRecorder && s.isPaused then
    { s with isPaused := false, timerActive := true }
  else s

/-- An `ondataavailable` firing (only possible while a recorder exists). -/
def dataAvailable (s : Session) (c : Chunk) : Session :=
  if s.hasRecorder then { s with chunks := pushChunk s.chunks c } else s

/-- Externally visible effects of `mediaRecorder.onstop`. -/
structure StopOutcome where
  /-- The record handed to a successful `saveRecording` / `onRecordingComplete`. -/
  saved : Option AudioRecording
  /-- `setError('Failed to save recording')` ran. -/
  errorSet : Bool
  /-- The closed-over stream after `stream.getTracks().forEach(track => track.stop())`;
  `none` when the handler did not run. -/
  releasedStream : Option MediaStream
deriving DecidableEq, Repr

/-- The `onstop` handler body, in source order: assemble the blob and the
record (duration from the closure-captured `recordingTime`), attempt the
storage write (`saveOk` is the transaction outcome), on failure set the
error; then unconditionally stop every track of the stream, reset the
recording state, and clear the interval. -/
def onstopHandler (s : Session) (mimeType : String) (now : Nat)
    (saveOk : Bool) : Session × StopOutcome :=
  let assembled := assembleRecording s.chunks (s.capturedTime.getD 0) mimeType now
  ( { s with
      isRecording := false
      isPaused := false
      recordingTime := 0
      hasRecorder := false
      stream := none
      timerActive := false }
  , { saved := if saveOk then some assembled else none
      errorSet := !saveOk
      releasedStream := s.stream.map stopAllTracks } )

/-- `stopRecording` and the `onstop` it triggers: guarded by
`mediaRecorder && isRecording` (true in both the recording and the paused
phase); otherwise nothing happens. -/
def stopRecording (s : Session) (mimeType : String) (now : Nat)
    (saveOk : Bool) : Session × StopOutcome :=
  if s.hasRecorder && s.isRecording then onstopHandler s mimeType now saveOk
  else (s, { saved := none, errorSet := false, releasedStream := none })

/-- The start control is rendered only when
`!recordingState.isRecording && !recordingState.isPaused`. -/
def startEnabled (s : Session) : Bool :=
  !s.isRecording && !s.isPaused

/-- Events the host event loop can deliver to the component: a click on an
enabled control, a timer tick, a data-available callback, or the stop
sequence (carrying the wall clock and the storage-write outcome). -/
inductive Ev where
  | start (ms : MediaStream)
  | tick
  | pause
  | resume
  | data (c : Chunk)
  | stop (mimeType : String) (now : Nat) (saveOk : Bool)
deriving Repr

/-- One event-loop step.  A start click can only happen while the start
control is rendered. -/
def step (s : Session) : Ev → Session
  | Ev.start ms => if startEnabled s then startRecording s ms else s
  | Ev.tick => tick s
  | Ev.pause => pauseRecording s
  | Ev.resume => resumeRecording s
  | Ev.data c => dataAvailable s c
  | Ev.stop mt now ok => (stopRecording s mt now ok).1

/-- The state after a sequence of events from the initial state. -/
def runEvents (evs : List Ev) : Session :=
  evs.foldl step initSession

/-! ### Helper lemmas -/

/-- Folding the `ondataavailable` handler appends exactly the non-empty
chunks, in emission order. -/
theorem processChunks_eq (emitted : List Chunk) :
    ∀ buf : List Chunk,
      processChunks buf emitted = buf ++ emitted.filter (fun c => 0 < c.length) := by
  induction emitted with
  | nil => intro buf; simp [processChunks]
  | cons c rest ih =>
      intro buf
      by_cases h : 0 < c.length
      · simp only [processChunks, List.foldl_cons] at *
        rw [ih (pushChunk buf c)]
        simp [pushChunk, h, List.filter_cons]
      · simp only [processChunks, List.foldl_cons] at *
        rw [ih (pushChunk buf c)]
        simp [pushChunk, h, List.filter_cons]

/-- Invariants of the recorder component that hold in every reachable
state: when neither recording nor paused the elapsed count is 0; a live
interval implies a recording in progress; the paused flag implies a
recording in progress; while paused the interval is cleared. -/
def SessionInv (s : Session) : Prop :=
  (s.isRecording = false → s.isPaused = false → s.recordingTime = 0)
  ∧ (s.timerActive = true → s.isRecording = true)
  ∧ (s.isPaused = true → s.isRecording = true)
  ∧ (s.isPaused = true → s.timerActive = false)

theorem sessionInv_init : SessionInv initSession := by
  refine ⟨fun _ _ => rfl, ?_, ?_, ?_⟩ <;> intro h <;> simp [initSession] at h

theorem sessionInv_step (s : Session) (ev : Ev) (h : SessionInv s) :
    SessionInv (step s ev) := by
  obtain ⟨h1, h2, h3, h4⟩ := h
  cases ev with
  | start ms =>
      by_cases hs : startEnabled s = true
      · simp [step, hs, startRecording, SessionInv]
      · have hstep : step s (Ev.start ms) = s := by simp [step, hs]
        rw [hstep]; exact ⟨h1, h2, h3, h4⟩
  | tick =>
      by_cases ht : s.timerActive = true
      · have hstep : step s Ev.tick = { s with recordingTime := s.recordingTime + 1 } := by
          simp [step, tick, ht]
        rw [hstep]
        refine ⟨fun hr _ => ?_, fun _ => h2 ht, fun hp => h3 hp, fun hp => h4 hp⟩
        exact Bool.noConfusion ((h2 ht).symm.trans hr)
      · have hstep : step s Ev.tick = s := by simp [step, tick, ht]
        rw [hstep]; exact ⟨h1, h2, h3, h4⟩
  | pause =>
      by_cases hhr : s.hasRecorder = true
      · by_cases hr : s.isRecording = true
        · have hstep : step s Ev.pause = { s with isPaused := true, timerActive := false } := by
            simp [step, pauseRecording, hhr, hr]
          rw [hstep]
          exact ⟨fun hfalse _ => Bool.noConfusion (hr.symm.trans hfalse),
                 fun hfalse => Bool.noConfusion hfalse, fun _ => hr, fun _ => rfl⟩
        · have hstep : step s Ev.pause = s := by simp [step, pauseRecording, hr]
          rw [hstep]; exact ⟨h1, h2, h3, h4⟩
      · have hstep : step s Ev.pause = s := by simp [step, pauseRecording, hhr]
        rw [hstep]; exact ⟨h1, h2, h3, h4⟩
  | resume =>
      by_cases hhr : s.hasRecorder = true
      · by_cases hp : s.isPaused = true
        · have hstep : step s Ev.resume = { s with isPaused := false, timerActive := true } := by
            simp [step, resumeRecording, hhr, hp]
          rw [hstep]
          exact ⟨fun hfalse _ => Bool.noConfusion ((h3 hp).symm.trans hfalse),
                 fun _ => h3 hp, fun hfalse => Bool.noConfusion hfalse,
                 fun hfalse => Bool.noConfusion hfalse⟩
        · have hstep : step s Ev.resume = s := by simp [step, resumeRecording, hp]
          rw [hstep]; exact ⟨h1, h2, h3, h4⟩
      · have hstep : step s Ev.resume = s := by simp [step, resumeRecording, hhr]
        rw [hstep]; exact ⟨h1, h2, h3, h4⟩
  | data c =>
      by_cases hhr : s.hasRecorder = true
      · have hstep : step s (Ev.data c) = { s with chunks := pushChunk s.chunks c } := by
          simp [step, dataAvailable, hhr]
        rw [hstep]; exact ⟨h1, h2, h3, h4⟩
      · have hstep : step s (Ev.data c) = s := by simp [step, dataAvailable, hhr]
        rw [hstep]; exact ⟨h1, h2, h3, h4⟩
  | stop mt now ok =>
      by_cases hhr : s.hasRecorder = true
      · by_cases hr : s.isRecording = true
        · have hstep : step s (Ev.stop mt now ok) =
              { s with isRecording := false, isPaused := false, recordingTime := 0,
                       hasRecorder := false, stream := none, timerActive := false } := by
            simp [step, stopRecording, onstopHandler, hhr, hr]
          rw [hstep]
          exact ⟨fun _ _ => rfl, fun hfalse => Bool.noConfusion hfalse,
                 fun hfalse => Bool.noConfusion hfalse, fun _ => rfl⟩
        · have hstep : step s (Ev.stop mt now ok) = s := by
            simp [step, stopRecording, hr]
          rw [hstep]; exact ⟨h1, h2, h3, h4⟩
      · have hstep : step s (Ev.stop mt now ok) = s := by
          simp [step, stopRecording, hhr]
        rw [hstep]; exact ⟨h1, h2, h3, h4⟩

theorem sessionInv_foldl (evs : List Ev) :
    ∀ s : Session, SessionInv s → SessionInv (evs.foldl step s) := by
  induction evs with
  | nil => intro s h; exact h
  | cons e rest ih => intro s h; exact ih (step s e) (sessionInv_step s e h)

/-- Every reachable state of the component satisfies the invariants. -/
theorem sessionInv_run (evs : List Ev) : SessionInv (runEvents evs) :=
  sessionInv_foldl evs initSession sessionInv_init

/-- `put` preserves uniqueness of identifiers in the store: the upsert
removes any record sharing the new record's key before appending it. -/
theorem nodup_ids_storePut (s : Store) (r : AudioRecording)
    (h : (s.map AudioRecording.id).Nodup) :
    ((storePut s r).map AudioRecording.id).Nodup := by
  unfold storePut
  rw [List.map_append]
  refine List.Nodup.append ?_ (List.nodup_singleton r.id) ?_
  · exact (h.sublist (List.Sublist.map AudioRecording.id (List.filter_sublist s)))
  · intro a ha hb
    simp only [List.map_singleton, List.mem_singleton] at hb
    subst hb
    rw [List.mem_map] at ha
    obtain ⟨x, hx, hxid⟩ := ha
    rw [List.mem_filter] at hx
    exact absurd hxid (by simpa using hx.2)

/-- Identifier uniqueness holds for any sequence of `put` calls starting
from a store with unique identifiers. -/
theorem nodup_ids_foldl_storePut (rs : List AudioRecording) :
    ∀ s : Store, (s.map AudioRecording.id).Nodup →
      (((rs.foldl storePut s).map AudioRecording.id)).Nodup := by
  induction rs with
  | nil => intro s h; exact h
  | cons r rest ih => intro s h; exact ih _ (nodup_ids_storePut s r h)

/-- The sort in `getRecordings` orders by non-increasing `createdAt`. -/
theorem sortByCreatedAtDesc_pairwise (rs : List AudioRecording) :
    (sortByCreatedAtDesc rs).Pairwise (fun a b => b.createdAt ≤ a.createdAt) :=
  List.sorted_insertionSort createdAtGe rs

/-- The sorted output is a permutation of the store contents. -/
theorem sortByCreatedAtDesc_perm (rs : List AudioRecording) :
    (sortByCreatedAtDesc rs).Perm rs :=
  List.perm_insertionSort createdAtGe rs

/-- When the creation timestamps in the store are pairwise distinct, the
output order is strictly descending. -/
theorem sortByCreatedAtDesc_strict (rs : List AudioRecording)
    (hd : (rs.map AudioRecording.createdAt).Nodup) :
    List.Chain' (fun a b => b.createdAt < a.createdAt) (sortByCreatedAtDesc rs) := by
  have hperm := sortByCreatedAtDesc_perm rs
  have hd2 : ((sortByCreatedAtDesc rs).map AudioRecording.createdAt).Nodup :=
    ((hperm.map AudioRecording.createdAt).nodup_iff).mpr hd
  rw [List.Nodup, List.pairwise_map] at hd2
  have hpw := sortByCreatedAtDesc_pairwise rs
  refine List.Pairwise.chain' ((hpw.and hd2).imp ?_)
  intro a b hab
  have h1 := hab.1
  have h2 := hab.2
  omega

/-! ### Concrete fixtures -/

/-- A single live-track stream, as `getUserMedia` normally yields. -/
def msLive : MediaStream := { audioTracks := [{ readyState := "live" }] }

/-- A stream whose first audio track has ended while a later one is live. -/
def msMixed : MediaStream :=
  { audioTracks := [{ readyState := "ended" }, { readyState := "live" }] }

/-- Two stored records sharing a creation timestamp. -/
def tieA : AudioRecording :=
  { id := "r1", name := "a", blob := [1], duration := 1, createdAt := 100,
    mimeType := "audio/webm" }

/-- See `tieA`. -/
def tieB : AudioRecording :=
  { id := "r2", name := "b", blob := [2], duration := 1, createdAt := 100,
    mimeType := "audio/webm" }

/-- A reachable state in the recording phase with a non-empty buffer. -/
def recordingWithChunk : Session :=
  dataAvailable (startRecording initSession msLive) [1]

/-! ### Claims -/

/-- C1 (counterexample): from a reachable state in the recording phase with
a non-empty chunk buffer, a direct `startRecording` call is not rejected —
it resets the chunk buffer, a side effect, contradicting the claim that the
call is rejected with `InvalidState` and leaves the buffer unchanged. -/
theorem start_while_recording_side_effects :
    recordingWithChunk = runEvents [Ev.start msLive, Ev.data [1]]
    ∧ recordingWithChunk.isRecording = true
    ∧ recordingWithChunk.chunks ≠ []
    ∧ (startRecording recordingWithChunk msLive).chunks = []
    ∧ (startRecording recordingWithChunk msLive).chunks ≠ recordingWithChunk.chunks :=
  ⟨by decide, rfl, by decide, rfl, by decide⟩

/-- C1 (amended): while the phase is recording or paused the start control
is not rendered, so the event system leaves the session unchanged on a
start attempt; no `InvalidState` rejection exists — the raw
`startRecording` function, invoked directly in such a phase, proceeds:
it resets the chunk buffer while keeping the elapsed count and remaining
in a recording phase. -/
theorem start_while_recording_amended (s : Session)
    (h : s.isRecording = true ∨ s.isPaused = true) :
    startEnabled s = false
    ∧ (∀ ms : MediaStream, step s (Ev.start ms) = s)
    ∧ (∀ ms : MediaStream, (startRecording s ms).chunks = []
        ∧ (startRecording s ms).recordingTime = s.recordingTime
        ∧ (startRecording s ms).isRecording = true) := by
  have he : startEnabled s = false := by
    cases h with
    | inl h => simp [startEnabled, h]
    | inr h => simp [startEnabled, h]
  refine ⟨he, ?_, fun ms => ⟨rfl, rfl, rfl⟩⟩
  intro ms
  simp [step, he]

theorem start_while_recording_amended_witness :
    ((startRecording initSession msLive).isRecording = true
      ∨ (startRecording initSession msLive).isPaused = true)
    ∧ (startEnabled (startRecording initSession msLive) = false
      ∧ (∀ ms : MediaStream,
          step (startRecording initSession msLive) (Ev.start ms)
            = startRecording initSession msLive)
      ∧ (∀ ms : MediaStream,
          (startRecording (startRecording initSession msLive) ms).chunks = []
          ∧ (startRecording (startRecording initSession msLive) ms).recordingTime
              = (startRecording initSession msLive).recordingTime
          ∧ (startRecording (startRecording initSession msLive) ms).isRecording = true)) :=
  ⟨Or.inl (by decide),
   start_while_recording_amended (startRecording initSession msLive) (Or.inl (by decide))⟩

/-- After `stopAllTracks` every track of the stream has ended. -/
theorem stopAllTracks_ended (m : MediaStream) :
    ∀ t ∈ (stopAllTracks m).audioTracks, t.readyState = "ended" := by
  intro t ht
  simp only [stopAllTracks, List.mem_map] at ht
  obtain ⟨t0, _, ht0⟩ := ht
  rw [← ht0]
  rfl

/-- C2: stopping a session whose recorder exists and whose `isRecording`
flag is set — true in both the recording and the paused phase — releases
the input stream on every exit path of finalization: every track of the
closed-over stream is stopped, both when the storage write succeeds and
when it fails (where additionally nothing is saved). -/
theorem stop_releases_stream_unconditionally (s : Session) (mt : String)
    (now : Nat) (hrec : s.hasRecorder = true) (hr : s.isRecording = true) :
    (stopRecording s mt now true).2.releasedStream = s.stream.map stopAllTracks
    ∧ (stopRecording s mt now false).2.releasedStream = s.stream.map stopAllTracks
    ∧ (∀ m ∈ (stopRecording s mt now true).2.releasedStream,
        ∀ t ∈ m.audioTracks, t.readyState = "ended")
    ∧ (∀ m ∈ (stopRecording s mt now false).2.releasedStream,
        ∀ t ∈ m.audioTracks, t.readyState = "ended")
    ∧ (stopRecording s mt now false).2.saved = none := by
  have hg : (s.hasRecorder && s.isRecording) = true := by rw [hrec, hr]; rfl
  have hout1 : (stopRecording s mt now true).2.releasedStream
      = s.stream.map stopAllTracks := by
    simp [stopRecording, onstopHandler, hg]
  have hout0 : (stopRecording s mt now false).2.releasedStream
      = s.stream.map stopAllTracks := by
    simp [stopRecording, onstopHandler, hg]
  have hmem : ∀ m ∈ s.stream.map stopAllTracks,
      ∀ t ∈ m.audioTracks, t.readyState = "ended" := by
    intro m hm
    rcases hs : s.stream with _ | ms
    · rw [hs] at hm; simp at hm
    · rw [hs] at hm
      simp only [Option.mem_def, Option.map_some', Option.some.injEq] at hm
      subst hm
      exact stopAllTracks_ended ms
  refine ⟨hout1, hout0, ?_, ?_, ?_⟩
  · rw [hout1]; exact hmem
  · rw [hout0]; exact hmem
  · simp [stopRecording, onstopHandler, hg]

theorem stop_releases_stream_witness :
    (startRecording initSession msLive).hasRecorder = true
    ∧ (startRecording initSession msLive).isRecording = true
    ∧ ((stopRecording (startRecording initSession msLive) "audio/webm" 99 true).2.releasedStream
        = (startRecording initSession msLive).stream.map stopAllTracks
      ∧ (stopRecording (startRecording initSession msLive) "audio/webm" 99 false).2.releasedStream
        = (startRecording initSession msLive).stream.map stopAllTracks
      ∧ (∀ m ∈ (stopRecording (startRecording initSession msLive) "audio/webm" 99 true).2.releasedStream,
          ∀ t ∈ m.audioTracks, t.readyState = "ended")
      ∧ (∀ m ∈ (stopRecording (startRecording initSession msLive) "audio/webm" 99 false).2.releasedStream,
          ∀ t ∈ m.audioTracks, t.readyState = "ended")
      ∧ (stopRecording (startRecording initSession msLive) "audio/webm" 99 false).2.saved = none) :=
  ⟨by decide, by decide,
   stop_releases_stream_unconditionally (startRecording initSession msLive)
     "audio/webm" 99 (by decide) (by decide)⟩

/-- C3: for every sequence of chunks emitted during a recording span,
exactly the non-empty chunks are appended to the buffer, in emission
order, and the assembled payload is their concatenation in that order; in
particular chunks of sizes 10, 20 and 30 bytes yield a 60-byte payload. -/
theorem chunk_buffer_order_and_concat :
    (∀ emitted : List Chunk,
      processChunks [] emitted = emitted.filter (fun c => 0 < c.length))
    ∧ (∀ emitted : List Chunk,
      blobBytes (processChunks [] emitted)
        = (emitted.filter (fun c => 0 < c.length)).flatten)
    ∧ (blobBytes (processChunks []
        [List.replicate 10 0, List.replicate 20 1, List.replicate 30 2])).length = 60 := by
  refine ⟨?_, ?_, by decide⟩
  · intro emitted
    simpa using processChunks_eq emitted []
  · intro emitted
    rw [blobBytes, processChunks_eq emitted []]
    simp

/-- C4 (code defect): after start and three timer ticks the session's
elapsed count is 3, yet the recording persisted by stop carries duration 0
— the `recordingTime` value the `onstop` closure captured when
`startRecording` ran — so the stored duration does not equal the elapsed
count at the moment of stop. -/
theorem stored_duration_is_stale_capture :
    (runEvents [Ev.start msLive, Ev.tick, Ev.tick, Ev.tick]).recordingTime = 3
    ∧ ((stopRecording (runEvents [Ev.start msLive, Ev.tick, Ev.tick, Ev.tick])
        "audio/webm" 1000 true).2.saved.map AudioRecording.duration) = some 0
    ∧ ((stopRecording (runEvents [Ev.start msLive, Ev.tick, Ev.tick, Ev.tick])
        "audio/webm" 1000 true).2.saved.map AudioRecording.duration)
      ≠ some ((runEvents [Ev.start msLive, Ev.tick, Ev.tick, Ev.tick]).recordingTime) :=
  ⟨by decide, by decide, by decide⟩

/-- C5 (counterexample): with two stored records sharing a creation
timestamp, `listAll` succeeds but its output is not strictly descending in
`createdAt` — strictness is unattainable on ties, so the claim fails for
this store state. -/
theorem listAll_not_strict_on_ties :
    (getRecordings (some [tieA, tieB])).1 = Except.ok (sortByCreatedAtDesc [tieA, tieB])
    ∧ ¬ List.Chain' (fun a b => b.createdAt < a.createdAt)
        (sortByCreatedAtDesc [tieA, tieB]) := by
  refine ⟨rfl, ?_⟩
  simp [sortByCreatedAtDesc, tieA, tieB, createdAtGe, List.chain'_cons]

/-- C5 (amended): for every store state `listAll` succeeds, returning a
permutation of the stored records ordered by non-increasing creation
timestamp (the empty sequence for an empty store); the order is strictly
descending whenever the stored creation timestamps are pairwise
distinct. -/
theorem listAll_sorted_desc_amended (s : Store) :
    (getRecordings (some s)).1 = Except.ok (sortByCreatedAtDesc s)
    ∧ (sortByCreatedAtDesc s).Pairwise (fun a b => b.createdAt ≤ a.createdAt)
    ∧ (sortByCreatedAtDesc s).Perm s
    ∧ sortByCreatedAtDesc ([] : Store) = []
    ∧ ((s.map AudioRecording.createdAt).Nodup →
        List.Chain' (fun a b => b.createdAt < a.createdAt) (sortByCreatedAtDesc s)) :=
  ⟨rfl, sortByCreatedAtDesc_pairwise s, sortByCreatedAtDesc_perm s, rfl,
   fun hd => sortByCreatedAtDesc_strict s hd⟩

theorem listAll_sorted_desc_witness :
    (getRecordings (some [tieA])).1 = Except.ok (sortByCreatedAtDesc [tieA])
    ∧ (sortByCreatedAtDesc [tieA]).Pairwise (fun a b => b.createdAt ≤ a.createdAt)
    ∧ (sortByCreatedAtDesc [tieA]).Perm [tieA]
    ∧ sortByCreatedAtDesc ([] : Store) = []
    ∧ (([tieA].map AudioRecording.createdAt).Nodup →
        List.Chain' (fun a b => b.createdAt < a.createdAt) (sortByCreatedAtDesc [tieA])) :=
  listAll_sorted_desc_amended [tieA]

/-- C6 (counterexample): two distinct recordings finalized within the same
wall-clock millisecond receive the same identifier, so identifiers of
recordings finalized within one session are not always distinct. -/
theorem same_tick_recordings_share_id :
    (assembleRecording [[1]] 0 "audio/webm" 500).id
      = (assembleRecording [[2]] 0 "audio/webm" 500).id
    ∧ assembleRecording [[1]] 0 "audio/webm" 500
      ≠ assembleRecording [[2]] 0 "audio/webm" 500 :=
  ⟨rfl, by decide⟩

/-- C6 (amended): the identifier generated at finalize time is a function
of the wall-clock value alone — any two recordings finalized within the
same millisecond share it — while the store, keyed by identifier with
`put` replacing any record with the same key, never holds two records with
the same identifier for any sequence of `put` calls. -/
theorem recording_ids_amended (c1 c2 : List Chunk) (d1 d2 : Nat)
    (m1 m2 : String) (now : Nat) (rs : List AudioRecording) :
    (assembleRecording c1 d1 m1 now).id = (assembleRecording c2 d2 m2 now).id
    ∧ ((rs.foldl storePut []).map AudioRecording.id).Nodup :=
  ⟨rfl, nodup_ids_foldl_storePut rs [] List.nodup_nil⟩

/-- C7: for every reachable session state whose recorder exists and whose
`isRecording` flag is set (the recording phase), `pause` followed
immediately by `resume`, with no tick in between, leaves the
elapsed-seconds count unchanged; and whenever the phase is paused the
interval is cleared, so a timer tick cannot advance the elapsed count. -/
theorem pause_resume_preserves_elapsed (evs : List Ev)
    (hrec : (runEvents evs).hasRecorder = true)
    (hr : (runEvents evs).isRecording = true) :
    (resumeRecording (pauseRecording (runEvents evs))).recordingTime
      = (runEvents evs).recordingTime
    ∧ ((runEvents evs).isPaused = true →
        (tick (runEvents evs)).recordingTime = (runEvents evs).recordingTime) := by
  constructor
  · have hg : ((runEvents evs).hasRecorder && (runEvents evs).isRecording) = true := by
      rw [hrec, hr]; rfl
    have hpause : pauseRecording (runEvents evs)
        = { runEvents evs with isPaused := true, timerActive := false } := by
      simp [pauseRecording, hg]
    rw [hpause]
    have hg2 : (({ runEvents evs with
        isPaused := true, timerActive := false } : Session).hasRecorder
        && ({ runEvents evs with
        isPaused := true, timerActive := false } : Session).isPaused) = true := by
      simp [hrec]
    simp [resumeRecording, hg2]
  · intro hp
    have h4 := (sessionInv_run evs).2.2.2 hp
    simp [tick, h4]

theorem pause_resume_preserves_elapsed_witness :
    (runEvents [Ev.start msLive]).hasRecorder = true
    ∧ (runEvents [Ev.start msLive]).isRecording = true
    ∧ ((resumeRecording (pauseRecording (runEvents [Ev.start msLive]))).recordingTime
        = (runEvents [Ev.start msLive]).recordingTime
      ∧ ((runEvents [Ev.start msLive]).isPaused = true →
          (tick (runEvents [Ev.start msLive])).recordingTime
            = (runEvents [Ev.start msLive]).recordingTime)) :=
  ⟨by decide, by decide,
   pause_resume_preserves_elapsed [Ev.start msLive] (by decide) (by decide)⟩

/-- C8: on every successful start — possible exactly in the reachable
states where the start control is rendered — the chunk buffer is reset to
empty, the elapsed count is 0 as recording begins, and a live 1-second
interval is started whose ticks increment the elapsed count. -/
theorem start_resets_buffer_time_and_timer (evs : List Ev) (ms : MediaStream)
    (hen : startEnabled (runEvents evs) = true) :
    (startRecording (runEvents evs) ms).chunks = []
    ∧ (startRecording (runEvents evs) ms).recordingTime = 0
    ∧ (startRecording (runEvents evs) ms).timerActive = true
    ∧ (tick (startRecording (runEvents evs) ms)).recordingTime
      = (startRecording (runEvents evs) ms).recordingTime + 1 := by
  have hinv := sessionInv_run evs
  rw [startEnabled, Bool.and_eq_true, Bool.not_eq_true', Bool.not_eq_true'] at hen
  refine ⟨rfl, ?_, rfl, ?_⟩
  · show (runEvents evs).recordingTime = 0
    exact hinv.1 hen.1 hen.2
  · simp [tick, startRecording]

theorem start_resets_buffer_time_and_timer_witness :
    startEnabled (runEvents []) = true
    ∧ ((startRecording (runEvents []) msLive).chunks = []
      ∧ (startRecording (runEvents []) msLive).recordingTime = 0
      ∧ (startRecording (runEvents []) msLive).timerActive = true
      ∧ (tick (startRecording (runEvents []) msLive)).recordingTime
        = (startRecording (runEvents []) msLive).recordingTime + 1) :=
  ⟨by decide, start_resets_buffer_time_and_timer [] msLive (by decide)⟩

/-- C9 (counterexample): on a stream whose first audio track has ended
while a later one is live, the probe returns `false` although the opened
stream yields a live audio track — the code inspects only the first
track, so the claimed equivalence fails. -/
theorem probe_false_despite_live_track :
    (testDevice (Except.ok msMixed)).1 = false
    ∧ ∃ t ∈ msMixed.audioTracks, t.readyState = "live" :=
  ⟨rfl, ⟨{ readyState := "live" }, by decide, rfl⟩⟩

/-- C9 (amended): the probe is a total function (it never throws) from the
`getUserMedia` outcome to a boolean: it returns `true` exactly when the
opened stream's track list is non-empty and its first track is live;
every failure collapses to `false` with no stream opened; and on the
success path every track of the test stream is stopped before the probe
returns. -/
theorem probe_behavior_amended (s : MediaStream) (e : String) :
    testDevice (Except.error e) = (false, none)
    ∧ ((testDevice (Except.ok s)).1 = true
        ↔ s.audioTracks.head?.map MediaStreamTrack.readyState = some "live")
    ∧ (testDevice (Except.ok s)).2 = some (stopAllTracks s)
    ∧ ∀ t ∈ (stopAllTracks s).audioTracks, t.readyState = "ended" := by
  refine ⟨rfl, ?_, ?_, stopAllTracks_ended s⟩
  · obtain ⟨tracks⟩ := s
    cases tracks with
    | nil => simp [testDevice]
    | cons t ts => simp [testDevice]
  · obtain ⟨tracks⟩ := s
    cases tracks with
    | nil => rfl
    | cons t ts => rfl

theorem probe_behavior_witness :
    testDevice (Except.error "NotAllowedError") = (false, none)
    ∧ ((testDevice (Except.ok msLive)).1 = true
        ↔ msLive.audioTracks.head?.map MediaStreamTrack.readyState = some "live")
    ∧ (testDevice (Except.ok msLive)).2 = some (stopAllTracks msLive)
    ∧ ∀ t ∈ (stopAllTracks msLive).audioTracks, t.readyState = "ended" :=
  probe_behavior_amended msLive "NotAllowedError"

/-- C10: every storage operation other than `init` — `put` / `listAll` /
`get` / `delete` — invoked before `init` has succeeded fails with the
`Database not initialized` error; no transaction is opened, the handle
stays uninitialized, and the underlying store is untouched. -/
theorem ops_before_init_fail (r : AudioRecording) (key : String) :
    saveRecording none r = (Except.error "Database not initialized", none)
    ∧ getRecordings none = (Except.error "Database not initialized", none)
    ∧ deleteRecording none key = (Except.error "Database not initialized", none)
    ∧ getRecording none key = (Except.error "Database not initialized", none) :=
  ⟨rfl, rfl, rfl, rfl⟩
